import Mathlib

/-!
Verification development for the `dbtx` transaction-orchestration library.

The definitions below are a shallow embedding of the Go source:

* `DBTX`, `apply`, `DBTX.dispatch` — the connection-handle interface, the
  middleware chain of `dbtx.go` (`apply`, lines 112-118) and the
  enter/delegate/return behaviour of the wrappers (`Recorder`, `Logger`,
  `Tracer`).
* `Ctx`, `IsTx`, `withValue`, `Value` — the ambient transaction context of
  the `dbtx` package (context helpers; `Value` returns the bound `*Tx`'s
  `underlying()`, i.e. the transaction handle with middleware applied).
* `Atomic`, `Atomic.DB`, `Atomic.DBTx`, `Atomic.Tx`, `Atomic.RunInTx` —
  the unit of work of `dbtx.go` (lines 36-101).
* `RunInTx` — the free helper of the second revision of `dbtx.go`
  (lines 226-247), with its `recover`/rollback/commit completion logic.
* `SqlTx.commit` / `SqlTx.rollback` — the `database/sql` transaction
  handle with its `done` guard (`ErrTxDone` after the first completion).
* the outbox (`postgres/outbox/outbox.go`), the advisory-lock helpers
  (`postgres/lock/lock.go`, `uow.go`) and the key hashing
  (`postgres/lock/key.go`).

Driver interaction is made observable as a trace of `DriverEv` events;
machine integers are modelled as `Nat`/`Int` with explicit `% 2 ^ w`.
-/

/-- Opaque error values flowing through the library: driver errors, errors
returned by user bodies, and the named sentinel errors of the source. -/
inductive Err where
  | driver : Nat → Err
  | app : Nat → Err
  | txDone : Err
  | alreadyLocked : Err
  | lockOutsideTx : Err
  | noRows : Err
  | emptyOutbox : Err
deriving DecidableEq, Repr

/-- A `DBTX` interface value: the `*sql.DB` pool handle, a `*sql.Tx`
transaction handle (tagged by an identifier), or a middleware wrapper
(`Recorder`/`Logger`/`Tracer`, tagged by a label) holding an inner handle. -/
inductive DBTX where
  | db : DBTX
  | tx : Nat → DBTX
  | wrap : Nat → DBTX → DBTX
deriving DecidableEq, Repr

/-- `dbtx.go` `apply` (lines 112-118): `for _, fn := range fns { dbtx = fn(dbtx) }`.
The middleware list is folded over the handle from the left, the first
function applied first (hence innermost in the resulting handle). -/
def apply (dbtx : DBTX) (fns : List (DBTX → DBTX)) : DBTX :=
  fns.foldl (fun d fn => fn d) dbtx

/-- The concrete handle a dispatch ultimately reaches once every middleware
wrapper is stripped. -/
def DBTX.base : DBTX → DBTX
  | .db => .db
  | .tx i => .tx i
  | .wrap _ inner => inner.base

/-- Events of one method dispatch: a wrapper is entered, a wrapper returns,
or the underlying handle performs the operation. -/
inductive DispatchEv where
  | enter : Nat → DispatchEv
  | leave : Nat → DispatchEv
  | op : DispatchEv
deriving DecidableEq, Repr

/-- The trace of a single method dispatch through a composed handle. Every
wrapper in the source (`Recorder.Exec`, `Logger.Exec`, `Tracer.Exec`, …)
runs its own code, delegates to the inner `dbtx`, and returns. -/
def DBTX.dispatch : DBTX → List DispatchEv
  | .db => [.op]
  | .tx _ => [.op]
  | .wrap m inner => .enter m :: (inner.dispatch ++ [.leave m])

theorem apply_nil (d : DBTX) : apply d [] = d := rfl

theorem apply_cons (d : DBTX) (f : DBTX → DBTX) (fns : List (DBTX → DBTX)) :
    apply d (f :: fns) = apply (f d) fns := rfl

/-- `postgres/outbox/outbox.go` `Message` (lines 81-86): the staged outbox
message. `json.RawMessage` payloads are modelled as strings; the Go field
`Type` is named `typ` here because `Type` is reserved in Lean. -/
structure Message where
  AggregateID : String
  AggregateType : String
  Payload : String
  typ : String
deriving DecidableEq, Repr

/-- `internal/postgres/query.sql.go` `CreateParams` (lines 40-45): the four
positional arrays of the bulk `INSERT ... UNNEST` statement. -/
structure CreateParams where
  AggregateIds : List String
  AggregateTypes : List String
  Types : List String
  Payloads : List String
deriving DecidableEq, Repr

/-- A query issued by a body through a `DBTX` handle. The `DBTX` interface
exposes only `Exec`/`Query`/`QueryRow`/`Prepare` (and their Context forms):
a body can never commit or roll back through it, so this type has no
commit/rollback constructor. The handle the query was dispatched on is
recorded with each query. -/
inductive QueryEv where
  | createOutbox : DBTX → CreateParams → QueryEv
  | deleteOutbox : DBTX → QueryEv
  | stmt : DBTX → Nat → QueryEv
deriving DecidableEq, Repr

/-- Driver-level events: transaction control reaching the driver, plus the
queries dispatched through handles. -/
inductive DriverEv where
  | beginTx : Nat → DriverEv
  | commitTx : Nat → DriverEv
  | rollbackTx : Nat → DriverEv
  | query : QueryEv → DriverEv
deriving DecidableEq, Repr

def countCommits (evs : List DriverEv) : Nat :=
  (evs.filter fun e => match e with | .commitTx _ => true | _ => false).length

def countRollbacks (evs : List DriverEv) : Nat :=
  (evs.filter fun e => match e with | .rollbackTx _ => true | _ => false).length

def countBegins (evs : List DriverEv) : Nat :=
  (evs.filter fun e => match e with | .beginTx _ => true | _ => false).length

/-- The `dbtx.Tx` value bound into the ambient context (`dbtx.go` lines
103-110): a `*sql.Tx` (its identifier) together with the middleware list of
the `Atomic` that began it. -/
structure TxVal where
  txId : Nat
  fns : List (DBTX → DBTX)

/-- The ambient context: at most one transaction binding (`txCtxKey`). -/
structure Ctx where
  txBinding : Option TxVal

/-- context helper `IsTx`: whether the context carries a `*Tx` binding. -/
def IsTx (ctx : Ctx) : Bool :=
  ctx.txBinding.isSome

/-- context helper `withValue`: bind a `*Tx` into the context. -/
def withValue (ctx : Ctx) (t : TxVal) : Ctx :=
  { ctx with txBinding := some t }

/-- context helper `Value`: the `DBTX` bound in the context, i.e. the bound
`Tx`'s `underlying()` — `apply(t.tx, t.fns...)` (`dbtx.go` lines 108-110). -/
def Value (ctx : Ctx) : Option DBTX :=
  ctx.txBinding.map fun t => apply (DBTX.tx t.txId) t.fns

/-- `dbtx.go` `Atomic` (lines 36-39): the unit of work, owning the pool
handle (modelled as `DBTX.db`) and the middleware list. -/
structure Atomic where
  fns : List (DBTX → DBTX)

/-- `Atomic.DB` (lines 53-55): `apply(a.db, a.fns...)`. -/
def Atomic.DB (a : Atomic) : DBTX :=
  apply DBTX.db a.fns

/-- `Atomic.DBTx` (lines 60-66): the context handle when one is bound, else
`a.DB()`. -/
def Atomic.DBTx (a : Atomic) (ctx : Ctx) : DBTX :=
  match Value ctx with
  | some tx => tx
  | none => a.DB

/-- `Atomic.Tx` (lines 72-79): the transaction handle from the context;
`none` models the `panic(ErrNotTransaction)` on an unbound context. -/
def Atomic.Tx (a : Atomic) (ctx : Ctx) : Option DBTX :=
  Value ctx

/-- The simulated driver: the outcome it would give each transaction-control
call, the id it assigns to the next transaction, and the outcome of the
outbox bulk insert. -/
structure Driver where
  beginErr : Option Err
  commitErr : Option Err
  rollbackErr : Option Err
  createErr : Option Err
  nextTxId : Nat

/-- A `database/sql` `*sql.Tx`: its identifier and `done` flag. -/
structure SqlTx where
  id : Nat
  done : Bool
deriving DecidableEq, Repr

/-- `database/sql` `Tx.Commit`: after the transaction completed once, it
returns `ErrTxDone` without reaching the driver; otherwise it marks the
transaction done and issues the driver commit. -/
def SqlTx.commit (t : SqlTx) (d : Driver) : Option Err × SqlTx × List DriverEv :=
  if t.done then (some Err.txDone, t, [])
  else (d.commitErr, { t with done := true }, [DriverEv.commitTx t.id])

/-- `database/sql` `Tx.Rollback`: same `done` guard as `Tx.Commit`. -/
def SqlTx.rollback (t : SqlTx) (d : Driver) : Option Err × SqlTx × List DriverEv :=
  if t.done then (some Err.txDone, t, [])
  else (d.rollbackErr, { t with done := true }, [DriverEv.rollbackTx t.id])

/-- Outcome of a body or of a `RunInTx` call: normal return with no error,
an error, or a propagating panic (tagged by an opaque panic value). -/
inductive Outcome where
  | ok : Outcome
  | err : Err → Outcome
  | panicked : Nat → Outcome
deriving DecidableEq, Repr

/-- `dbtx.go` `Atomic.RunInTx` (lines 84-101):

```go
if IsTx(ctx) { return fn(ctx) }
tx, err := a.db.BeginTx(ctx, TxOptions(ctx))
if err != nil { return err }
defer tx.Rollback()
ctx = withValue(ctx, &Tx{tx: tx, fns: a.fns})
if err := fn(ctx); err != nil { return err }
return tx.Commit()
```

The body is a function of the context it receives, yielding its outcome and
the queries it dispatched. The deferred `tx.Rollback()` runs on every
non-re-entrant exit path; after `tx.Commit()` it hits the `done` guard and
never reaches the driver. Its error is discarded on every path. -/
def Atomic.RunInTx (a : Atomic) (d : Driver) (ctx : Ctx)
    (fn : Ctx → Outcome × List QueryEv) : Outcome × List DriverEv :=
  if IsTx ctx then
    ((fn ctx).1, (fn ctx).2.map DriverEv.query)
  else
    match d.beginErr with
    | some e => (Outcome.err e, [])
    | none =>
      let t0 : SqlTx := { id := d.nextTxId, done := false }
      let ctx1 := withValue ctx { txId := t0.id, fns := a.fns }
      match fn ctx1 with
      | (Outcome.ok, evs) =>
        let c := t0.commit d
        let r := c.2.1.rollback d
        ((match c.1 with | none => Outcome.ok | some e => Outcome.err e),
          DriverEv.beginTx t0.id :: (evs.map DriverEv.query ++ c.2.2 ++ r.2.2))
      | (Outcome.err e, evs) =>
        let r := t0.rollback d
        (Outcome.err e, DriverEv.beginTx t0.id :: (evs.map DriverEv.query ++ r.2.2))
      | (Outcome.panicked p, evs) =>
        let r := t0.rollback d
        (Outcome.panicked p, DriverEv.beginTx t0.id :: (evs.map DriverEv.query ++ r.2.2))

/-- `dbtx.go` (second revision) free function `RunInTx` (lines 226-247):
begin, run the body on the transaction, then the deferred completion —
`recover` → rollback and re-panic with the original value; body error →
rollback, keep the original error; else `err = tx.Commit()`. -/
def RunInTx (d : Driver) (fn : Nat → Outcome × List QueryEv) : Outcome × List DriverEv :=
  match d.beginErr with
  | some e => (Outcome.err e, [])
  | none =>
    let t0 : SqlTx := { id := d.nextTxId, done := false }
    match fn t0.id with
    | (Outcome.ok, evs) =>
      let c := t0.commit d
      ((match c.1 with | none => Outcome.ok | some e => Outcome.err e),
        DriverEv.beginTx t0.id :: (evs.map DriverEv.query ++ c.2.2))
    | (Outcome.err e, evs) =>
      let r := t0.rollback d
      (Outcome.err e, DriverEv.beginTx t0.id :: (evs.map DriverEv.query ++ r.2.2))
    | (Outcome.panicked p, evs) =>
      let r := t0.rollback d
      (Outcome.panicked p, DriverEv.beginTx t0.id :: (evs.map DriverEv.query ++ r.2.2))

/-- `postgres/outbox/outbox.go` `outbox.Enqueue` (lines 103-107): append the
messages to the staging buffer (the mutex only serializes the append). -/
def outboxEnqueue (buf : List Message) (msgs : List Message) : List Message :=
  buf ++ msgs

/-- `outbox.IsZero` (lines 109-115): whether the staging buffer is empty. -/
def outboxIsZero (buf : List Message) : Bool :=
  buf.isEmpty

/-- `outbox.Params` (lines 117-128): fold over the staged messages, appending
each field of each message to the corresponding array of `CreateParams`. -/
def outboxParams (buf : List Message) : CreateParams :=
  buf.foldl
    (fun params msg =>
      { params with
          AggregateIds := params.AggregateIds ++ [msg.AggregateID],
          AggregateTypes := params.AggregateTypes ++ [msg.AggregateType],
          Payloads := params.Payloads ++ [msg.Payload],
          Types := params.Types ++ [msg.typ] })
    { AggregateIds := [], AggregateTypes := [], Types := [], Payloads := [] }

/-- `postgres/outbox/outbox.go` `Outbox` (lines 19-21): embeds `*dbtx.Atomic`. -/
structure Outbox where
  toAtomic : Atomic

/-- `Outbox.RunInTx` (lines 33-47): delegate to `Atomic.RunInTx`; the inner
closure allocates a fresh staging buffer, binds it into the context it hands
to `fn`, and after a successful body bulk-inserts the non-empty buffer via
`o.db(txCtx).Create(txCtx, ob.Params())`, where `o.db(txCtx)` routes through
`Atomic.DBTx(txCtx)`. The user body is modelled state-passing on the buffer
it enqueues into (the context binding of the buffer is this explicit state):
it returns its outcome, the final buffer, and the queries it dispatched. -/
def Outbox.RunInTx (o : Outbox) (d : Driver) (ctx : Ctx)
    (fn : Ctx → List Message → (Outcome × List Message) × List QueryEv) :
    Outcome × List DriverEv :=
  o.toAtomic.RunInTx d ctx fun txCtx =>
    match fn txCtx [] with
    | ((Outcome.ok, buf), evs) =>
      if outboxIsZero buf then (Outcome.ok, evs)
      else
        ((match d.createErr with | none => Outcome.ok | some e => Outcome.err e),
          evs ++ [QueryEv.createOutbox (o.toAtomic.DBTx txCtx) (outboxParams buf)])
    | ((Outcome.err e, _), evs) => (Outcome.err e, evs)
    | ((Outcome.panicked p, _), evs) => (Outcome.panicked p, evs)

/-- A persisted outbox row (`internal/postgres/models.go` / the `outbox`
table): `id` is the `bigint` identity key, modelled as `Int`. -/
structure OutboxRow where
  id : Int
  AggregateID : String
  AggregateType : String
  typ : String
  Payload : String
  CreatedAt : Nat
deriving DecidableEq, Repr

/-- `postgres/outbox/outbox.go` `Event` (lines 89-96). -/
structure Event where
  ID : Int
  AggregateID : String
  AggregateType : String
  Payload : String
  typ : String
  CreatedAt : Nat
deriving DecidableEq, Repr

/-- The `Event` literal `Outbox.Process` builds from the deleted row
(lines 65-72). -/
def eventOfRow (r : OutboxRow) : Event :=
  { ID := r.id, AggregateID := r.AggregateID, AggregateType := r.AggregateType,
    Payload := r.Payload, typ := r.typ, CreatedAt := r.CreatedAt }

/-- The row of minimal `id` among `r :: rs`. -/
def minIdRow (r : OutboxRow) (rs : List OutboxRow) : OutboxRow :=
  rs.foldl (fun acc x => if x.id < acc.id then x else acc) r

/-- Semantics of the `Delete` statement (`internal/postgres/query.sql.go`
lines 57-68):

```
DELETE FROM outbox WHERE id =
  (SELECT id FROM outbox ORDER BY id FOR UPDATE SKIP LOCKED LIMIT 1)
RETURNING *
```

Rows whose `id` another transaction holds locked are skipped; among the
remaining rows the one of smallest `id` is deleted and returned; if none is
available the scan yields `sql.ErrNoRows`. -/
def deleteOutboxSem (table : List OutboxRow) (locked : List Int) :
    Except Err (OutboxRow × List OutboxRow) :=
  match table.filter (fun r => !locked.contains r.id) with
  | [] => Except.error Err.noRows
  | r :: rs =>
    let m := minIdRow r rs
    Except.ok (m, table.filter fun x => x.id ≠ m.id)

/-- The closure `Outbox.Process` (lines 55-74) passes to `Atomic.RunInTx`:
call `Delete`, map `sql.ErrNoRows` to the `Empty` sentinel, propagate any
other error, else hand the row to the handler as an `Event`. Returns the
body's error and the table as this transaction left it. -/
def processBody (table : List OutboxRow) (locked : List Int)
    (fn : Event → Option Err) : Option Err × List OutboxRow :=
  match deleteOutboxSem table locked with
  | Except.error e => if e = Err.noRows then (some Err.emptyOutbox, table) else (some e, table)
  | Except.ok (row, rest) =>
    match fn (eventOfRow row) with
    | some e => (some e, rest)
    | none => (none, rest)

/-- `Outbox.Process`: the closure runs inside `Atomic.RunInTx`, so a body
error rolls the transaction back (the table is restored) while success
commits the deletion. -/
def OutboxProcess (table : List OutboxRow) (locked : List Int)
    (fn : Event → Option Err) : Option Err × List OutboxRow :=
  match processBody table locked fn with
  | (some e, _) => (some e, table)
  | (none, rest) => (none, rest)

/-- `uow.go` `UnitOfWork` (lines 44-51): the variant flag (`tx != nil`) and
the state of the `sync.Once` guarding commit/rollback. -/
structure UnitOfWork where
  isTxVariant : Bool
  onceConsumed : Bool
deriving DecidableEq, Repr

/-- `uow.go` `New` (lines 54-65): pool variant; the `Once` is consumed at
construction (`uow.once.Do(func() {})`). -/
def UnitOfWork.New : UnitOfWork :=
  { isTxVariant := false, onceConsumed := true }

/-- `uow.go` `NewTx` (lines 68-73): transaction variant, fresh `Once`. -/
def UnitOfWork.NewTx : UnitOfWork :=
  { isTxVariant := true, onceConsumed := false }

/-- Driver events a `UnitOfWork` can cause. -/
inductive UowEv where
  | commitTx : UowEv
  | rollbackTx : UowEv
deriving DecidableEq, Repr

/-- `uow.go` `Commit` (lines 108-114): `uow.once.Do(func() { err = uow.tx.Commit() })`.
When the `Once` already ran, the closure is skipped and the zero-valued
`err` (nil) is returned; otherwise the driver commit runs and the `Once` is
consumed. -/
def UnitOfWork.Commit (u : UnitOfWork) (commitErr : Option Err) :
    Option Err × UnitOfWork × List UowEv :=
  if u.onceConsumed then (none, u, [])
  else (commitErr, { u with onceConsumed := true }, [UowEv.commitTx])

/-- `uow.go` `Rollback` (lines 117-123): same `Once` guard as `Commit`. -/
def UnitOfWork.Rollback (u : UnitOfWork) (rollbackErr : Option Err) :
    Option Err × UnitOfWork × List UowEv :=
  if u.onceConsumed then (none, u, [])
  else (rollbackErr, { u with onceConsumed := true }, [UowEv.rollbackTx])

/-- A call against a `UnitOfWork`: `Commit()` or `Rollback()`. -/
inductive UowCall where
  | commit : UowCall
  | rollback : UowCall
deriving DecidableEq, Repr

/-- Run a sequence of `Commit`/`Rollback` calls against a `UnitOfWork`,
collecting every call's returned error and the driver events. -/
def runUowCalls (u : UnitOfWork) (ce re : Option Err) :
    List UowCall → List (Option Err) × UnitOfWork × List UowEv
  | [] => ([], u, [])
  | c :: cs =>
    let step := match c with
      | UowCall.commit => u.Commit ce
      | UowCall.rollback => u.Rollback re
    let rest := runUowCalls step.2.1 ce re cs
    (step.1 :: rest.1, rest.2.1, step.2.2 ++ rest.2.2)

/-- `postgres/lock/key.go` constants of Go's `math` package. -/
def maxInt64 : Nat := 2 ^ 63 - 1

def maxInt32 : Nat := 2 ^ 31 - 1

/-- Go `uint64` subtraction: wraps modulo `2 ^ 64`. -/
def uint64Sub (a b : Nat) : Nat :=
  (a + 2 ^ 64 - b % 2 ^ 64) % 2 ^ 64

/-- Go `uint32` subtraction: wraps modulo `2 ^ 32`. -/
def uint32Sub (a b : Nat) : Nat :=
  (a + 2 ^ 32 - b % 2 ^ 32) % 2 ^ 32

/-- Go conversion `int64(u)` of a `uint64` value: two's-complement
reinterpretation. -/
def int64OfUInt64 (n : Nat) : Int :=
  if n % 2 ^ 64 < 2 ^ 63 then (n % 2 ^ 64 : Nat) else (n % 2 ^ 64 : Nat) - 2 ^ 64

/-- Go conversion `int32(u)` of a `uint32` value. -/
def int32OfUInt32 (n : Nat) : Int :=
  if n % 2 ^ 32 < 2 ^ 31 then (n % 2 ^ 32 : Nat) else (n % 2 ^ 32 : Nat) - 2 ^ 32

/-- Go `int64` arithmetic wraps in two's complement. -/
def int64Wrap (z : Int) : Int :=
  (z + 2 ^ 63) % 2 ^ 64 - 2 ^ 63

/-- Go `int32` arithmetic wraps in two's complement. -/
def int32Wrap (z : Int) : Int :=
  (z + 2 ^ 31) % 2 ^ 32 - 2 ^ 31

/-- `postgres/lock/key.go` `Uint64ToInt64` (lines 137-143):

```go
if u64 > uint64(math.MaxInt64) { return int64(u64 - uint64(math.MaxInt64) - 1) }
return int64(u64) - math.MaxInt64 - 1
```

Every machine operation is modelled with its wrap-around semantics. -/
def Uint64ToInt64 (u64 : Nat) : Int :=
  if u64 > maxInt64 then int64OfUInt64 (uint64Sub (uint64Sub u64 maxInt64) 1)
  else int64Wrap (int64Wrap (int64OfUInt64 u64 - maxInt64) - 1)

/-- `postgres/lock/key.go` `Uint32ToInt32` (lines 145-151). -/
def Uint32ToInt32 (u32 : Nat) : Int :=
  if u32 > maxInt32 then int32OfUInt32 (uint32Sub (uint32Sub u32 maxInt32) 1)
  else int32Wrap (int32Wrap (int32OfUInt32 u32 - maxInt32) - 1)

/-- `hash/fnv` `New64` offset basis (FNV-1, 64 bit). -/
def fnvOffset64 : Nat := 14695981039346656037

/-- `hash/fnv` 64-bit FNV prime. -/
def fnvPrime64 : Nat := 1099511628211

/-- `hash/fnv` `New32` offset basis (FNV-1, 32 bit). -/
def fnvOffset32 : Nat := 2166136261

/-- `hash/fnv` 32-bit FNV prime. -/
def fnvPrime32 : Nat := 16777619

/-- `postgres/lock/key.go` `Hash64` (lines 119-127): FNV-1 over the key's
bytes — per byte `s *= prime; s ^= byte`, in `uint64` arithmetic. The key is
modelled as its byte sequence. -/
def Hash64 (key : List Nat) : Nat :=
  key.foldl (fun h b => (h * fnvPrime64 % 2 ^ 64) ^^^ b % 256) fnvOffset64

/-- `postgres/lock/key.go` `Hash32` (lines 109-117): 32-bit FNV-1. -/
def Hash32 (key : List Nat) : Nat :=
  key.foldl (fun h b => (h * fnvPrime32 % 2 ^ 32) ^^^ b % 256) fnvOffset32

/-- `postgres/lock/key.go` `IntHash64` (lines 133-135). -/
def IntHash64 (key : List Nat) : Int :=
  Uint64ToInt64 (Hash64 key)

/-- `postgres/lock/key.go` `IntHash32` (lines 129-131). -/
def IntHash32 (key : List Nat) : Int :=
  Uint32ToInt32 (Hash32 key)

/-- `postgres/lock/key.go` `Key` (lines 117-122): pair of `int32` or a
single `int64`, with the `pair` tag selecting the SQL function. -/
structure LockKey where
  x : Int
  y : Int
  z : Int
  pair : Bool
deriving DecidableEq, Repr

/-- The database's reply to `SELECT pg_try_advisory_xact_lock(...)`: either
the scan fails, or it reports whether the lock was acquired. PostgreSQL
reports `true` exactly when the lock was obtained — in particular a re-try
on the same key by the transaction already holding it returns `true`
(advisory locks are owner-re-entrant). -/
inductive TryLockReply where
  | scanErr : Err → TryLockReply
  | acquired : Bool → TryLockReply
deriving DecidableEq, Repr

/-- `postgres/lock/lock.go` `TryLock` (lines 66-89): require a transaction
in the context (else `ErrLockOutsideTx`); issue
`pg_try_advisory_xact_lock($1[, $2])` (the key's `pair` tag selects the
form); scan `isLockAcquired`; `!isLockAcquired` → `ErrAlreadyLocked`,
otherwise nil. -/
def TryLock (ctx : Ctx) (key : LockKey) (reply : TryLockReply) : Option Err :=
  match Value ctx with
  | none => some Err.lockOutsideTx
  | some _ =>
    match reply with
    | TryLockReply.scanErr e => some e
    | TryLockReply.acquired isLockAcquired =>
      if !isLockAcquired then some Err.alreadyLocked else none

/-- `uow.go` `AtomicTryLock` (lines 211-224), the closure running after
`AtomicFn` opened the transaction: scan `locked` from
`pg_try_advisory_xact_lock($1)`; `if locked` → `ErrAlreadyLocked`; else run
`fn`. -/
def AtomicTryLockBody (reply : TryLockReply) (fn : Unit → Option Err) : Option Err :=
  match reply with
  | TryLockReply.scanErr e => some e
  | TryLockReply.acquired locked =>
    if locked then some Err.alreadyLocked else fn ()

theorem countCommits_append (l1 l2 : List DriverEv) :
    countCommits (l1 ++ l2) = countCommits l1 + countCommits l2 := by
  simp [countCommits, List.filter_append]

theorem countRollbacks_append (l1 l2 : List DriverEv) :
    countRollbacks (l1 ++ l2) = countRollbacks l1 + countRollbacks l2 := by
  simp [countRollbacks, List.filter_append]

theorem countBegins_append (l1 l2 : List DriverEv) :
    countBegins (l1 ++ l2) = countBegins l1 + countBegins l2 := by
  simp [countBegins, List.filter_append]

theorem countCommits_map_query (evs : List QueryEv) :
    countCommits (evs.map DriverEv.query) = 0 := by
  induction evs with
  | nil => rfl
  | cons e es ih => simp [countCommits, List.filter_cons, ih]

theorem countRollbacks_map_query (evs : List QueryEv) :
    countRollbacks (evs.map DriverEv.query) = 0 := by
  induction evs with
  | nil => rfl
  | cons e es ih => simp [countRollbacks, List.filter_cons, ih]

theorem countBegins_map_query (evs : List QueryEv) :
    countBegins (evs.map DriverEv.query) = 0 := by
  induction evs with
  | nil => rfl
  | cons e es ih => simp [countBegins, List.filter_cons, ih]

/-- C3 (counterexample): the claim says that for a middleware chain `[A, B]`
the composed handle enters `A` before `B` (first-listed outermost). With
`A = wrap 0` and `B = wrap 1` over the pool handle, the dispatch trace of
`apply(db, A, B)` enters `B` strictly before `A`, so the claimed ordering is
false at this input. -/
theorem mw_first_outermost_refuted :
    ¬ ((apply DBTX.db [fun d => DBTX.wrap 0 d, fun d => DBTX.wrap 1 d]).dispatch.indexOf
          (DispatchEv.enter 0) <
        (apply DBTX.db [fun d => DBTX.wrap 0 d, fun d => DBTX.wrap 1 d]).dispatch.indexOf
          (DispatchEv.enter 1)) := by
  decide

/-- C3 (amended): `apply` folds the middleware list left-to-right with the
first-listed wrapper applied first, hence innermost: the composed handle is
`B(A(handle))`, and every method dispatch enters `B` before `A` and exits
`A` before `B` — the LAST-listed wrapper is outermost. -/
theorem mw_last_outermost (a b : Nat) (d : DBTX) :
    apply d [fun x => DBTX.wrap a x, fun x => DBTX.wrap b x] = DBTX.wrap b (DBTX.wrap a d) ∧
    (apply DBTX.db [fun x => DBTX.wrap a x, fun x => DBTX.wrap b x]).dispatch =
      [DispatchEv.enter b, DispatchEv.enter a, DispatchEv.op,
        DispatchEv.leave a, DispatchEv.leave b] :=
  ⟨rfl, rfl⟩

/-- C4: handling of the `pg_try_advisory_xact_lock` acquisition flag.
`postgres/lock/lock.go` `TryLock` is faithful to it — inside a transaction
it succeeds exactly when the database reports the lock acquired (so a re-try
by the holding transaction, which PostgreSQL answers with `true`, succeeds)
and returns `ErrAlreadyLocked` exactly when acquisition failed. `uow.go`
`AtomicTryLock` (lines 211-224) inverts the flag: at the failing input where
the database reports the lock acquired (`true`), it returns
`ErrAlreadyLocked` and never runs `fn`, and when acquisition failed it runs
`fn` as if the lock were held — contradicting its own doc comment
("only the first will succeed. The rest will fail with … ErrAlreadyLocked"). -/
theorem tryLock_flag_handling :
    (∀ (ctx : Ctx) (t : TxVal) (key : LockKey) (b : Bool),
      TryLock (withValue ctx t) key (TryLockReply.acquired b) =
        if b then none else some Err.alreadyLocked) ∧
    (∀ (key : LockKey) (reply : TryLockReply), TryLock { txBinding := none } key reply =
      some Err.lockOutsideTx) ∧
    AtomicTryLockBody (TryLockReply.acquired true) (fun _ => none) = some Err.alreadyLocked ∧
    AtomicTryLockBody (TryLockReply.acquired false) (fun _ => some (Err.app 7)) =
      some (Err.app 7) := by
  refine ⟨fun ctx t key b => ?_, fun key reply => rfl, rfl, rfl⟩
  cases b <;> rfl

theorem uint64ToInt64_shift (u : Nat) (hu : u < 2 ^ 64) :
    Uint64ToInt64 u = (u : Int) - 2 ^ 63 := by
  unfold Uint64ToInt64 maxInt64 int64OfUInt64 int64Wrap uint64Sub
  split <;> split <;> omega

theorem uint32ToInt32_shift (v : Nat) (hv : v < 2 ^ 32) :
    Uint32ToInt32 v = (v : Int) - 2 ^ 31 := by
  unfold Uint32ToInt32 maxInt32 int32OfUInt32 int32Wrap uint32Sub
  split <;> split <;> omega

theorem Hash64_lt (key : List Nat) : Hash64 key < 2 ^ 64 := by
  unfold Hash64
  have step : ∀ (bs : List Nat) (h0 : Nat), h0 < 2 ^ 64 →
      bs.foldl (fun h b => (h * fnvPrime64 % 2 ^ 64) ^^^ b % 256) h0 < 2 ^ 64 := by
    intro bs
    induction bs with
    | nil => intro h0 h; simpa using h
    | cons b bs ih =>
      intro h0 _
      simp only [List.foldl_cons]
      exact ih _ (Nat.xor_lt_two_pow (Nat.mod_lt _ (by norm_num)) (by omega))
  exact step key fnvOffset64 (by norm_num [fnvOffset64])

theorem Hash32_lt (key : List Nat) : Hash32 key < 2 ^ 32 := by
  unfold Hash32
  have step : ∀ (bs : List Nat) (h0 : Nat), h0 < 2 ^ 32 →
      bs.foldl (fun h b => (h * fnvPrime32 % 2 ^ 32) ^^^ b % 256) h0 < 2 ^ 32 := by
    intro bs
    induction bs with
    | nil => intro h0 h; simpa using h
    | cons b bs ih =>
      intro h0 _
      simp only [List.foldl_cons]
      exact ih _ (Nat.xor_lt_two_pow (Nat.mod_lt _ (by norm_num)) (by omega))
  exact step key fnvOffset32 (by norm_num [fnvOffset32])

/-- C9: `Uint64ToInt64` maps a `uint64` value `u` to the integer
`u - 2 ^ 63`, an order-preserving bijection from `[0, 2 ^ 64)` onto
`[-2 ^ 63, 2 ^ 63)`; `Uint32ToInt32` likewise maps `v` to `v - 2 ^ 31`.
Consequently every string lock key hashes (`IntHash64` / `IntHash32`) into
the full signed `bigint` / `integer` range accepted by the advisory-lock
functions. -/
theorem uintToInt_shift_and_hash_range (u : Nat) (hu : u < 2 ^ 64)
    (v : Nat) (hv : v < 2 ^ 32) (key : List Nat) :
    Uint64ToInt64 u = (u : Int) - 2 ^ 63 ∧
    Uint32ToInt32 v = (v : Int) - 2 ^ 31 ∧
    (∀ u1 u2 : Nat, u1 < u2 → u2 < 2 ^ 64 → Uint64ToInt64 u1 < Uint64ToInt64 u2) ∧
    (∀ z : Int, -2 ^ 63 ≤ z → z < 2 ^ 63 →
      ∃ w : Nat, w < 2 ^ 64 ∧ Uint64ToInt64 w = z) ∧
    (∀ w1 w2 : Nat, w1 < 2 ^ 64 → w2 < 2 ^ 64 →
      Uint64ToInt64 w1 = Uint64ToInt64 w2 → w1 = w2) ∧
    (-2 ^ 63 ≤ IntHash64 key ∧ IntHash64 key < 2 ^ 63) ∧
    (-2 ^ 31 ≤ IntHash32 key ∧ IntHash32 key < 2 ^ 31) := by
  refine ⟨uint64ToInt64_shift u hu, uint32ToInt32_shift v hv, ?_, ?_, ?_, ?_, ?_⟩
  · intro u1 u2 h12 h2
    rw [uint64ToInt64_shift u1 (lt_trans h12 h2), uint64ToInt64_shift u2 h2]
    omega
  · intro z h1 h2
    refine ⟨(z + 2 ^ 63).toNat, by omega, ?_⟩
    rw [uint64ToInt64_shift _ (by omega)]
    omega
  · intro w1 w2 h1 h2 heq
    rw [uint64ToInt64_shift w1 h1, uint64ToInt64_shift w2 h2] at heq
    omega
  · unfold IntHash64
    rw [uint64ToInt64_shift _ (Hash64_lt key)]
    have := Hash64_lt key
    omega
  · unfold IntHash32
    rw [uint32ToInt32_shift _ (Hash32_lt key)]
    have := Hash32_lt key
    omega

/-- C9 witness: the theorem applied at `u = 2 ^ 63 + 5`, `v = 3`, and the
bytes of `"foo"`. -/
theorem uintToInt_shift_and_hash_range_witness :
    (2 ^ 63 + 5 < 2 ^ 64 ∧ 3 < 2 ^ 32) ∧
    (Uint64ToInt64 (2 ^ 63 + 5) = (2 ^ 63 + 5 : Int) - 2 ^ 63 ∧
      Uint32ToInt32 3 = (3 : Int) - 2 ^ 31 ∧
      (∀ u1 u2 : Nat, u1 < u2 → u2 < 2 ^ 64 → Uint64ToInt64 u1 < Uint64ToInt64 u2) ∧
      (∀ z : Int, -2 ^ 63 ≤ z → z < 2 ^ 63 →
        ∃ w : Nat, w < 2 ^ 64 ∧ Uint64ToInt64 w = z) ∧
      (∀ w1 w2 : Nat, w1 < 2 ^ 64 → w2 < 2 ^ 64 →
        Uint64ToInt64 w1 = Uint64ToInt64 w2 → w1 = w2) ∧
      (-2 ^ 63 ≤ IntHash64 [102, 111, 111] ∧ IntHash64 [102, 111, 111] < 2 ^ 63) ∧
      (-2 ^ 31 ≤ IntHash32 [102, 111, 111] ∧ IntHash32 [102, 111, 111] < 2 ^ 31)) :=
  ⟨⟨by norm_num, by norm_num⟩,
    uintToInt_shift_and_hash_range (2 ^ 63 + 5) (by norm_num) 3 (by norm_num) [102, 111, 111]⟩

theorem outboxParams_foldl (buf : List Message) (acc : CreateParams) :
    buf.foldl
        (fun params msg =>
          { params with
              AggregateIds := params.AggregateIds ++ [msg.AggregateID],
              AggregateTypes := params.AggregateTypes ++ [msg.AggregateType],
              Payloads := params.Payloads ++ [msg.Payload],
              Types := params.Types ++ [msg.typ] })
        acc =
      { AggregateIds := acc.AggregateIds ++ buf.map (·.AggregateID),
        AggregateTypes := acc.AggregateTypes ++ buf.map (·.AggregateType),
        Types := acc.Types ++ buf.map (·.typ),
        Payloads := acc.Payloads ++ buf.map (·.Payload) } := by
  induction buf generalizing acc with
  | nil => simp
  | cons m ms ih => simp [List.foldl_cons, ih]

theorem outboxParams_eq (buf : List Message) :
    outboxParams buf =
      { AggregateIds := buf.map (·.AggregateID),
        AggregateTypes := buf.map (·.AggregateType),
        Types := buf.map (·.typ),
        Payloads := buf.map (·.Payload) } := by
  unfold outboxParams
  simpa using outboxParams_foldl buf
    { AggregateIds := [], AggregateTypes := [], Types := [], Payloads := [] }

/-- C10: `Params()` over a staging buffer of `k` messages yields four arrays
each of length `k`, index-aligned per message: position `i` of
`AggregateIds`, `AggregateTypes`, `Types` and `Payloads` holds exactly the
fields of the `i`-th enqueued message, so the bulk insert reconstitutes each
staged message intact and in enqueue order. -/
theorem params_index_aligned (buf : List Message) :
    (outboxParams buf).AggregateIds.length = buf.length ∧
    (outboxParams buf).AggregateTypes.length = buf.length ∧
    (outboxParams buf).Types.length = buf.length ∧
    (outboxParams buf).Payloads.length = buf.length ∧
    ∀ i : Nat, ∀ h : i < buf.length,
      (outboxParams buf).AggregateIds[i]? = some (buf[i].AggregateID) ∧
      (outboxParams buf).AggregateTypes[i]? = some (buf[i].AggregateType) ∧
      (outboxParams buf).Types[i]? = some (buf[i].typ) ∧
      (outboxParams buf).Payloads[i]? = some (buf[i].Payload) := by
  rw [outboxParams_eq]
  refine ⟨by simp, by simp, by simp, by simp, ?_⟩
  intro i h
  simp [List.getElem?_map, List.getElem?_eq_getElem h]

/-- C10 witness: the theorem applied to a concrete two-message buffer, with
the alignment checked at index 1. -/
theorem params_index_aligned_witness :
    (1 < ([{ AggregateID := "a-id-1", AggregateType := "a-type-1",
              Payload := "p1", typ := "type-1" },
            { AggregateID := "a-id-2", AggregateType := "a-type-2",
              Payload := "p2", typ := "type-2" }] : List Message).length) ∧
    (outboxParams
        [{ AggregateID := "a-id-1", AggregateType := "a-type-1",
            Payload := "p1", typ := "type-1" },
          { AggregateID := "a-id-2", AggregateType := "a-type-2",
            Payload := "p2", typ := "type-2" }]).AggregateIds[1]? = some "a-id-2" :=
  ⟨by decide,
    ((params_index_aligned
        [{ AggregateID := "a-id-1", AggregateType := "a-type-1",
            Payload := "p1", typ := "type-1" },
          { AggregateID := "a-id-2", AggregateType := "a-type-2",
            Payload := "p2", typ := "type-2" }]).2.2.2.2 1 (by decide)).1⟩

theorem runUowCalls_consumed (ce re : Option Err) (calls : List UowCall)
    (u : UnitOfWork) (h : u.onceConsumed = true) :
    runUowCalls u ce re calls = ((calls.map fun _ => none), u, []) := by
  induction calls with
  | nil => rfl
  | cons c cs ih =>
    cases c <;>
      simp [runUowCalls, UnitOfWork.Commit, UnitOfWork.Rollback, h, ih]

theorem runUowCalls_events_le (ce re : Option Err) (calls : List UowCall) :
    ∀ u : UnitOfWork,
      (runUowCalls u ce re calls).2.2.length ≤ if u.onceConsumed then 0 else 1 := by
  induction calls with
  | nil => intro u; cases h : u.onceConsumed <;> simp [runUowCalls]
  | cons c cs ih =>
    intro u
    by_cases h : u.onceConsumed = true
    · rw [runUowCalls_consumed ce re (c :: cs) u h, h]
      simp
    · have h2 : u.onceConsumed = false := by simpa using h
      cases c <;>
        simp [runUowCalls, UnitOfWork.Commit, UnitOfWork.Rollback, h2] <;>
        rw [runUowCalls_consumed ce re cs _ rfl]

/-- C8: the `sync.Once` guard on a `UnitOfWork`. Over any sequence of
`Commit`/`Rollback` calls in any order, at most one call ever reaches the
underlying driver transaction; once the guard is consumed, every call is a
no-op returning nil; each call leaves the guard consumed; and on the
pool-variant `UnitOfWork` built by `New` — whose guard is pre-consumed at
construction — `Commit` and `Rollback` never touch the driver at all. -/
theorem uow_once_guard (calls : List UowCall) (ce re : Option Err) (u : UnitOfWork)
    (h : u.onceConsumed = true) :
    runUowCalls UnitOfWork.New ce re calls =
      ((calls.map fun _ => none), UnitOfWork.New, []) ∧
    (∀ w : UnitOfWork, (runUowCalls w ce re calls).2.2.length ≤ 1) ∧
    runUowCalls u ce re calls = ((calls.map fun _ => none), u, []) ∧
    (∀ w : UnitOfWork, ((w.Commit ce).2.1.onceConsumed = true ∧
      (w.Rollback re).2.1.onceConsumed = true)) := by
  refine ⟨runUowCalls_consumed ce re calls UnitOfWork.New rfl, ?_,
    runUowCalls_consumed ce re calls u h, ?_⟩
  · intro w
    have hle := runUowCalls_events_le ce re calls w
    cases hw : w.onceConsumed <;> rw [hw] at hle
    · rw [if_neg (by simp)] at hle; exact hle
    · rw [if_pos rfl] at hle; omega
  · intro w
    constructor <;> by_cases hw : w.onceConsumed = true <;>
      simp [UnitOfWork.Commit, UnitOfWork.Rollback, hw]

/-- C8 witness: the theorem applied to the call sequence
`[Commit, Rollback, Commit]` against a fresh transaction-variant
`UnitOfWork` for the bound, and against a consumed one for the no-op part. -/
theorem uow_once_guard_witness :
    (UnitOfWork.New.onceConsumed = true) ∧
    runUowCalls UnitOfWork.New (some (Err.driver 1)) (some (Err.driver 2))
        [UowCall.commit, UowCall.rollback, UowCall.commit] =
      ([none, none, none], UnitOfWork.New, []) ∧
    (runUowCalls UnitOfWork.NewTx (some (Err.driver 1)) (some (Err.driver 2))
        [UowCall.commit, UowCall.rollback, UowCall.commit]).2.2.length ≤ 1 :=
  ⟨rfl,
    (uow_once_guard [UowCall.commit, UowCall.rollback, UowCall.commit]
      (some (Err.driver 1)) (some (Err.driver 2)) UnitOfWork.New rfl).1,
    (uow_once_guard [UowCall.commit, UowCall.rollback, UowCall.commit]
      (some (Err.driver 1)) (some (Err.driver 2)) UnitOfWork.New rfl).2.1
      UnitOfWork.NewTx⟩

theorem base_apply (fns : List (DBTX → DBTX))
    (hfns : ∀ fn ∈ fns, ∀ x : DBTX, (fn x).base = x.base) :
    ∀ d : DBTX, (apply d fns).base = d.base := by
  induction fns with
  | nil => intro d; rfl
  | cons f fs ih =>
    intro d
    rw [apply_cons, ih (fun g hg x => hfns g (List.mem_cons_of_mem f hg) x),
      hfns f (List.mem_cons_self f fs)]

/-- C5: for every context handed to a `run_in_tx` body — i.e. any context
with a `Tx` binding `t` — `Atomic.DBTx` returns the bound transaction handle
(the `*sql.Tx` with middleware applied), which is exactly the handle
`Atomic.Tx` returns; provided the middleware merely wrap their inner handle
(true of `Recorder`/`Logger`/`Tracer`), that handle bottoms out at the
bound transaction, never at the pool. For every context without a binding,
`DBTx` returns the pool handle `DB()`. -/
theorem dbtx_routes_to_tx (a : Atomic) (ctx : Ctx) (t : TxVal)
    (hfns : ∀ fn ∈ t.fns, ∀ x : DBTX, (fn x).base = x.base) :
    a.DBTx (withValue ctx t) = apply (DBTX.tx t.txId) t.fns ∧
    a.Tx (withValue ctx t) = some (a.DBTx (withValue ctx t)) ∧
    (a.DBTx (withValue ctx t)).base = DBTX.tx t.txId ∧
    (a.DBTx (withValue ctx t)).base ≠ DBTX.db ∧
    (∀ c : Ctx, IsTx c = false → a.DBTx c = a.DB) := by
  have hv : Value (withValue ctx t) = some (apply (DBTX.tx t.txId) t.fns) := rfl
  have h1 : a.DBTx (withValue ctx t) = apply (DBTX.tx t.txId) t.fns := by
    unfold Atomic.DBTx
    rw [hv]
  have h3 : (a.DBTx (withValue ctx t)).base = DBTX.tx t.txId := by
    rw [h1, base_apply t.fns hfns]
    rfl
  refine ⟨h1, ?_, h3, by rw [h3]; exact fun hc => DBTX.noConfusion hc, ?_⟩
  · unfold Atomic.Tx
    rw [hv, h1]
  · intro c hc
    have hnone : c.txBinding = none := by
      cases hcb : c.txBinding with
      | none => rfl
      | some v => rw [IsTx, hcb] at hc; simp at hc
    unfold Atomic.DBTx Value
    rw [hnone]
    rfl

/-- C5 witness: the theorem applied to an `Atomic` with one wrapping
middleware, a context bound to transaction 3 carrying one wrapper, and the
unbound context. -/
theorem dbtx_routes_to_tx_witness :
    ((Atomic.mk [fun x => DBTX.wrap 9 x]).DBTx
        (withValue { txBinding := none } { txId := 3, fns := [fun x => DBTX.wrap 9 x] }) =
      apply (DBTX.tx 3) [fun x => DBTX.wrap 9 x]) ∧
    ((Atomic.mk [fun x => DBTX.wrap 9 x]).DBTx
        (withValue { txBinding := none } { txId := 3, fns := [fun x => DBTX.wrap 9 x] })).base =
      DBTX.tx 3 := by
  have h := dbtx_routes_to_tx (Atomic.mk [fun x => DBTX.wrap 9 x]) { txBinding := none }
    { txId := 3, fns := [fun x => DBTX.wrap 9 x] }
    (by
      intro fn hfn x
      rcases List.mem_singleton.mp hfn with rfl
      rfl)
  exact ⟨h.1, h.2.2.1⟩

/-- C2: completion logic of `RunInTx` (`dbtx.go`, second revision, lines
226-247). When the body returns an error, exactly one rollback reaches the
driver, no commit, and the body's error is returned with any rollback error
suppressed; when the body panics, exactly one rollback, no commit, and the
original panic value is re-raised with any rollback error suppressed; when
the body succeeds, the commit is issued and a commit failure is what the
caller gets. -/
theorem runInTx_rollback_on_error (d : Driver) (fn : Nat → Outcome × List QueryEv)
    (hb : d.beginErr = none) :
    (∀ e evs, fn d.nextTxId = (Outcome.err e, evs) →
      RunInTx d fn = (Outcome.err e,
        DriverEv.beginTx d.nextTxId ::
          (evs.map DriverEv.query ++ [DriverEv.rollbackTx d.nextTxId])) ∧
      countRollbacks (RunInTx d fn).2 = 1 ∧ countCommits (RunInTx d fn).2 = 0) ∧
    (∀ p evs, fn d.nextTxId = (Outcome.panicked p, evs) →
      RunInTx d fn = (Outcome.panicked p,
        DriverEv.beginTx d.nextTxId ::
          (evs.map DriverEv.query ++ [DriverEv.rollbackTx d.nextTxId])) ∧
      countRollbacks (RunInTx d fn).2 = 1 ∧ countCommits (RunInTx d fn).2 = 0) ∧
    (∀ evs, fn d.nextTxId = (Outcome.ok, evs) →
      RunInTx d fn = ((match d.commitErr with
          | none => Outcome.ok
          | some e => Outcome.err e),
        DriverEv.beginTx d.nextTxId ::
          (evs.map DriverEv.query ++ [DriverEv.commitTx d.nextTxId])) ∧
      countCommits (RunInTx d fn).2 = 1 ∧ countRollbacks (RunInTx d fn).2 = 0) := by
  refine ⟨fun e evs hfn => ?_, fun p evs hfn => ?_, fun evs hfn => ?_⟩
  · have heq : RunInTx d fn = (Outcome.err e,
        DriverEv.beginTx d.nextTxId ::
          (evs.map DriverEv.query ++ [DriverEv.rollbackTx d.nextTxId])) := by
      unfold RunInTx
      rw [hb]
      simp [hfn, SqlTx.rollback]
    refine ⟨heq, ?_, ?_⟩ <;>
      rw [heq] <;>
      simp [countRollbacks, countCommits, List.filter_append, List.filter_cons,
        countRollbacks_map_query, countCommits_map_query]
  · have heq : RunInTx d fn = (Outcome.panicked p,
        DriverEv.beginTx d.nextTxId ::
          (evs.map DriverEv.query ++ [DriverEv.rollbackTx d.nextTxId])) := by
      unfold RunInTx
      rw [hb]
      simp [hfn, SqlTx.rollback]
    refine ⟨heq, ?_, ?_⟩ <;>
      rw [heq] <;>
      simp [countRollbacks, countCommits, List.filter_append, List.filter_cons,
        countRollbacks_map_query, countCommits_map_query]
  · have heq : RunInTx d fn = ((match d.commitErr with
        | none => Outcome.ok
        | some e => Outcome.err e),
        DriverEv.beginTx d.nextTxId ::
          (evs.map DriverEv.query ++ [DriverEv.commitTx d.nextTxId])) := by
      unfold RunInTx
      rw [hb]
      simp [hfn, SqlTx.commit]
    refine ⟨heq, ?_, ?_⟩ <;>
      rw [heq] <;>
      simp [countRollbacks, countCommits, List.filter_append, List.filter_cons,
        countRollbacks_map_query, countCommits_map_query]

/-- C2 witness: the theorem applied to a driver whose rollback itself fails,
and a body returning an application error — the rollback error is
suppressed, the single rollback reaches the driver, and no commit. -/
theorem runInTx_rollback_on_error_witness :
    ({ beginErr := none, commitErr := none, rollbackErr := some (Err.driver 9),
        createErr := none, nextTxId := 5 } : Driver).beginErr = none ∧
    (fun _ : Nat => (Outcome.err (Err.app 1), ([] : List QueryEv))) 5 =
      (Outcome.err (Err.app 1), ([] : List QueryEv)) ∧
    RunInTx
        { beginErr := none, commitErr := none, rollbackErr := some (Err.driver 9),
          createErr := none, nextTxId := 5 }
        (fun _ => (Outcome.err (Err.app 1), [])) =
      (Outcome.err (Err.app 1), [DriverEv.beginTx 5, DriverEv.rollbackTx 5]) :=
  ⟨rfl, rfl, by
    have h := ((runInTx_rollback_on_error
        { beginErr := none, commitErr := none, rollbackErr := some (Err.driver 9),
          createErr := none, nextTxId := 5 }
        (fun _ => (Outcome.err (Err.app 1), [])) rfl).1 (Err.app 1) [] rfl).1
    simpa using h⟩

/-- C1: re-entrancy and commit-once of `Atomic.RunInTx` (`dbtx.go` lines
84-101). With a context already carrying a transaction binding, the body is
invoked directly with that context and its result is returned unchanged,
and the re-entrant call begins no new transaction and issues zero commits
and zero rollbacks of its own — its driver trace is exactly the queries the
body performed. For an outermost (unbound) call that returns successfully,
exactly one commit is invoked on the underlying driver. -/
theorem runInTx_reentrant_commit_once (a : Atomic) (d : Driver) (ctx : Ctx)
    (fn : Ctx → Outcome × List QueryEv) :
    (IsTx ctx = true →
      a.RunInTx d ctx fn = ((fn ctx).1, (fn ctx).2.map DriverEv.query) ∧
      countBegins (a.RunInTx d ctx fn).2 = 0 ∧
      countCommits (a.RunInTx d ctx fn).2 = 0 ∧
      countRollbacks (a.RunInTx d ctx fn).2 = 0) ∧
    (IsTx ctx = false → (a.RunInTx d ctx fn).1 = Outcome.ok →
      countCommits (a.RunInTx d ctx fn).2 = 1) := by
  constructor
  · intro h
    have heq : a.RunInTx d ctx fn = ((fn ctx).1, (fn ctx).2.map DriverEv.query) := by
      unfold Atomic.RunInTx
      rw [h]
      simp
    refine ⟨heq, ?_, ?_, ?_⟩ <;> rw [heq] <;>
      simp [countBegins_map_query, countCommits_map_query, countRollbacks_map_query]
  · intro h
    cases hb : d.beginErr with
    | some e =>
      have heq : a.RunInTx d ctx fn = (Outcome.err e, []) := by
        unfold Atomic.RunInTx
        rw [h, hb]
        simp
      rw [heq]
      intro hok
      simp at hok
    | none =>
      rcases hfn : fn (withValue ctx { txId := d.nextTxId, fns := a.fns }) with ⟨o, evs⟩
      cases o with
      | ok =>
        have heq : a.RunInTx d ctx fn =
            ((match d.commitErr with | none => Outcome.ok | some e => Outcome.err e),
              DriverEv.beginTx d.nextTxId ::
                (evs.map DriverEv.query ++ [DriverEv.commitTx d.nextTxId])) := by
          unfold Atomic.RunInTx
          rw [h, hb]
          simp [hfn, SqlTx.commit, SqlTx.rollback]
        rw [heq]
        intro _
        simp [countCommits, List.filter_cons, List.filter_append,
          countCommits_map_query]
      | err e =>
        have heq : a.RunInTx d ctx fn = (Outcome.err e,
            DriverEv.beginTx d.nextTxId ::
              (evs.map DriverEv.query ++ [DriverEv.rollbackTx d.nextTxId])) := by
          unfold Atomic.RunInTx
          rw [h, hb]
          simp [hfn, SqlTx.rollback]
        rw [heq]
        intro hok
        simp at hok
      | panicked p =>
        have heq : a.RunInTx d ctx fn = (Outcome.panicked p,
            DriverEv.beginTx d.nextTxId ::
              (evs.map DriverEv.query ++ [DriverEv.rollbackTx d.nextTxId])) := by
          unfold Atomic.RunInTx
          rw [h, hb]
          simp [hfn, SqlTx.rollback]
        rw [heq]
        intro hok
        simp at hok

/-- C1 witness: the theorem applied to a re-entrant call (context bound to
transaction 3) and to a successful outermost call. -/
theorem runInTx_reentrant_commit_once_witness :
    (IsTx (withValue { txBinding := none } { txId := 3, fns := [] }) = true ∧
      countCommits ((Atomic.mk []).RunInTx
          { beginErr := none, commitErr := none, rollbackErr := none,
            createErr := none, nextTxId := 5 }
          (withValue { txBinding := none } { txId := 3, fns := [] })
          (fun _ => (Outcome.ok, [QueryEv.stmt DBTX.db 0]))).2 = 0) ∧
    (IsTx ({ txBinding := none } : Ctx) = false ∧
      ((Atomic.mk []).RunInTx
          { beginErr := none, commitErr := none, rollbackErr := none,
            createErr := none, nextTxId := 5 }
          { txBinding := none }
          (fun _ => (Outcome.ok, [QueryEv.stmt DBTX.db 0]))).1 = Outcome.ok ∧
      countCommits ((Atomic.mk []).RunInTx
          { beginErr := none, commitErr := none, rollbackErr := none,
            createErr := none, nextTxId := 5 }
          { txBinding := none }
          (fun _ => (Outcome.ok, [QueryEv.stmt DBTX.db 0]))).2 = 1) :=
  ⟨⟨rfl,
    ((runInTx_reentrant_commit_once (Atomic.mk [])
        { beginErr := none, commitErr := none, rollbackErr := none,
          createErr := none, nextTxId := 5 }
        (withValue { txBinding := none } { txId := 3, fns := [] })
        (fun _ => (Outcome.ok, [QueryEv.stmt DBTX.db 0]))).1 rfl).2.2.1⟩,
    ⟨rfl, rfl,
      (runInTx_reentrant_commit_once (Atomic.mk [])
        { beginErr := none, commitErr := none, rollbackErr := none,
          createErr := none, nextTxId := 5 }
        { txBinding := none }
        (fun _ => (Outcome.ok, [QueryEv.stmt DBTX.db 0]))).2 rfl rfl⟩⟩

/-- C6: atomicity of `Outbox.RunInTx` (`postgres/outbox/outbox.go` lines
33-47) on an outermost call. If the user body returns an error, the outbox
layer issues no insert, the transaction is rolled back and the error is
returned. If the body succeeds with a non-empty staging buffer, the single
bulk insert of `Params()` over the final buffer — whose four arrays list
the staged messages in enqueue order — is issued through the handle bound
to this very transaction, inside the transaction (after begin, before
commit). If the buffer stayed empty, no insert is issued. -/
theorem outbox_atomicity (o : Outbox) (d : Driver) (ctx : Ctx)
    (fn : Ctx → List Message → (Outcome × List Message) × List QueryEv)
    (h : IsTx ctx = false) (hb : d.beginErr = none) :
    (∀ e buf evs,
      fn (withValue ctx { txId := d.nextTxId, fns := o.toAtomic.fns }) [] =
          ((Outcome.err e, buf), evs) →
      o.RunInTx d ctx fn = (Outcome.err e,
        DriverEv.beginTx d.nextTxId ::
          (evs.map DriverEv.query ++ [DriverEv.rollbackTx d.nextTxId]))) ∧
    (∀ buf evs,
      fn (withValue ctx { txId := d.nextTxId, fns := o.toAtomic.fns }) [] =
          ((Outcome.ok, buf), evs) →
      buf ≠ [] → d.createErr = none →
      o.RunInTx d ctx fn =
        ((match d.commitErr with | none => Outcome.ok | some e => Outcome.err e),
          DriverEv.beginTx d.nextTxId ::
            ((evs ++ [QueryEv.createOutbox
                (o.toAtomic.DBTx (withValue ctx { txId := d.nextTxId, fns := o.toAtomic.fns }))
                (outboxParams buf)]).map DriverEv.query ++
              [DriverEv.commitTx d.nextTxId])) ∧
      (outboxParams buf).AggregateIds = buf.map (·.AggregateID) ∧
      (outboxParams buf).AggregateTypes = buf.map (·.AggregateType) ∧
      (outboxParams buf).Types = buf.map (·.typ) ∧
      (outboxParams buf).Payloads = buf.map (·.Payload) ∧
      o.toAtomic.DBTx (withValue ctx { txId := d.nextTxId, fns := o.toAtomic.fns }) =
        apply (DBTX.tx d.nextTxId) o.toAtomic.fns) ∧
    (∀ evs,
      fn (withValue ctx { txId := d.nextTxId, fns := o.toAtomic.fns }) [] =
          ((Outcome.ok, []), evs) →
      o.RunInTx d ctx fn =
        ((match d.commitErr with | none => Outcome.ok | some e => Outcome.err e),
          DriverEv.beginTx d.nextTxId ::
            (evs.map DriverEv.query ++ [DriverEv.commitTx d.nextTxId]))) := by
  refine ⟨fun e buf evs hfn => ?_, fun buf evs hfn hne hcr => ?_, fun evs hfn => ?_⟩
  · unfold Outbox.RunInTx Atomic.RunInTx
    rw [h]
    simp only [Bool.false_eq_true, if_false]
    rw [hb]
    simp [hfn, SqlTx.rollback]
  · rcases buf with _ | ⟨m, ms⟩
    · exact absurd rfl hne
    refine ⟨?_, by simp [outboxParams_eq], by simp [outboxParams_eq],
      by simp [outboxParams_eq], by simp [outboxParams_eq], rfl⟩
    unfold Outbox.RunInTx Atomic.RunInTx
    rw [h]
    simp only [Bool.false_eq_true, if_false]
    rw [hb]
    simp [hfn, hcr, outboxIsZero, SqlTx.commit, SqlTx.rollback]
  · unfold Outbox.RunInTx Atomic.RunInTx
    rw [h]
    simp only [Bool.false_eq_true, if_false]
    rw [hb]
    simp [hfn, outboxIsZero, SqlTx.commit, SqlTx.rollback]

/-- C6 witness: the theorem applied to a concrete outbox over transaction 7,
once with a body that enqueues one message and fails (rollback, no insert)
and once with a body that enqueues one message and succeeds (single insert
of its params through the transaction handle, then commit). -/
theorem outbox_atomicity_witness :
    IsTx ({ txBinding := none } : Ctx) = false ∧
    (Outbox.mk (Atomic.mk [])).RunInTx
        { beginErr := none, commitErr := none, rollbackErr := none,
          createErr := none, nextTxId := 7 }
        { txBinding := none }
        (fun _ _ => ((Outcome.err (Err.app 2),
          [{ AggregateID := "a-id-1", AggregateType := "a-type-1",
              Payload := "p1", typ := "type-1" }]), [])) =
      (Outcome.err (Err.app 2), [DriverEv.beginTx 7, DriverEv.rollbackTx 7]) ∧
    (Outbox.mk (Atomic.mk [])).RunInTx
        { beginErr := none, commitErr := none, rollbackErr := none,
          createErr := none, nextTxId := 7 }
        { txBinding := none }
        (fun _ _ => ((Outcome.ok,
          [{ AggregateID := "a-id-1", AggregateType := "a-type-1",
              Payload := "p1", typ := "type-1" }]), [])) =
      (Outcome.ok,
        [DriverEv.beginTx 7,
          DriverEv.query (QueryEv.createOutbox (DBTX.tx 7)
            (outboxParams
              [{ AggregateID := "a-id-1", AggregateType := "a-type-1",
                  Payload := "p1", typ := "type-1" }])),
          DriverEv.commitTx 7]) := by
  refine ⟨rfl, ?_, ?_⟩
  · have hcase := (outbox_atomicity (Outbox.mk (Atomic.mk []))
        { beginErr := none, commitErr := none, rollbackErr := none,
          createErr := none, nextTxId := 7 }
        { txBinding := none }
        (fun _ _ => ((Outcome.err (Err.app 2),
          [{ AggregateID := "a-id-1", AggregateType := "a-type-1",
              Payload := "p1", typ := "type-1" }]), [])) rfl rfl).1
        (Err.app 2)
        [{ AggregateID := "a-id-1", AggregateType := "a-type-1",
            Payload := "p1", typ := "type-1" }] [] rfl
    simpa using hcase
  · have hcase := ((outbox_atomicity (Outbox.mk (Atomic.mk []))
        { beginErr := none, commitErr := none, rollbackErr := none,
          createErr := none, nextTxId := 7 }
        { txBinding := none }
        (fun _ _ => ((Outcome.ok,
          [{ AggregateID := "a-id-1", AggregateType := "a-type-1",
              Payload := "p1", typ := "type-1" }]), [])) rfl rfl).2.1
        [{ AggregateID := "a-id-1", AggregateType := "a-type-1",
            Payload := "p1", typ := "type-1" }] [] rfl (by simp) rfl).1
    simpa using hcase

theorem minIdRow_mem (rs : List OutboxRow) : ∀ r : OutboxRow, minIdRow r rs ∈ r :: rs := by
  induction rs with
  | nil => intro r; simp [minIdRow]
  | cons x xs ih =>
    intro r
    have hstep : minIdRow r (x :: xs) = minIdRow (if x.id < r.id then x else r) xs := rfl
    rw [hstep]
    rcases List.mem_cons.mp (ih (if x.id < r.id then x else r)) with h1 | h1
    · rw [h1]
      split
      · exact List.mem_cons_of_mem _ (List.mem_cons_self _ _)
      · exact List.mem_cons_self _ _
    · exact List.mem_cons_of_mem _ (List.mem_cons_of_mem _ h1)

theorem minIdRow_le (rs : List OutboxRow) :
    ∀ r : OutboxRow, ∀ s ∈ r :: rs, (minIdRow r rs).id ≤ s.id := by
  induction rs with
  | nil =>
    intro r s hs
    rw [List.mem_singleton.mp hs]
    exact le_refl _
  | cons x xs ih =>
    intro r s hs
    have hstep : minIdRow r (x :: xs) = minIdRow (if x.id < r.id then x else r) xs := rfl
    have hmin := ih (if x.id < r.id then x else r) _ (List.mem_cons_self _ _)
    rw [hstep]
    rcases List.mem_cons.mp hs with heq | hs1
    · rw [heq]
      have h2 : (if x.id < r.id then x else r).id ≤ r.id := by split <;> omega
      omega
    · rcases List.mem_cons.mp hs1 with heq | hs2
      · rw [heq]
        have h2 : (if x.id < r.id then x else r).id ≤ x.id := by split <;> omega
        omega
      · exact ih _ _ (List.mem_cons_of_mem _ hs2)

/-- C7: `Outbox.Process` / the `Delete` statement. When no outbox row is
available (all rows locked by other transactions, or the table empty), the
driver's no-rows reply is mapped to the `Empty` sentinel — `sql.ErrNoRows`
itself is never returned. When rows are available, the row of smallest
available `id` is the one deleted and handed to the handler as the `Event`,
and on handler success the deletion is committed. -/
theorem process_load_and_delete (table : List OutboxRow) (locked : List Int)
    (fn : Event → Option Err) :
    (table.filter (fun r => !locked.contains r.id) = [] →
      processBody table locked fn = (some Err.emptyOutbox, table) ∧
      (processBody table locked fn).1 ≠ some Err.noRows ∧
      OutboxProcess table locked fn = (some Err.emptyOutbox, table)) ∧
    (∀ r rs, table.filter (fun r => !locked.contains r.id) = r :: rs →
      ∃ m : OutboxRow, m ∈ table ∧ locked.contains m.id = false ∧
        (∀ s ∈ table, locked.contains s.id = false → m.id ≤ s.id) ∧
        processBody table locked fn =
          (fn (eventOfRow m), table.filter fun x => x.id ≠ m.id) ∧
        (fn (eventOfRow m) = none →
          OutboxProcess table locked fn = (none, table.filter fun x => x.id ≠ m.id))) := by
  constructor
  · intro hfil
    have hsem : deleteOutboxSem table locked = Except.error Err.noRows := by
      unfold deleteOutboxSem
      rw [hfil]
    have hpb : processBody table locked fn = (some Err.emptyOutbox, table) := by
      unfold processBody
      rw [hsem]
      rfl
    refine ⟨hpb, by rw [hpb]; simp, ?_⟩
    unfold OutboxProcess
    rw [hpb]
  · intro r rs hfil
    have hsem : deleteOutboxSem table locked =
        Except.ok (minIdRow r rs, table.filter fun x => x.id ≠ (minIdRow r rs).id) := by
      unfold deleteOutboxSem
      rw [hfil]
    have hmem : minIdRow r rs ∈ table.filter (fun r => !locked.contains r.id) := by
      rw [hfil]
      exact minIdRow_mem rs r
    have hmem2 := List.mem_filter.mp hmem
    have hpb : processBody table locked fn =
        (fn (eventOfRow (minIdRow r rs)), table.filter fun x => x.id ≠ (minIdRow r rs).id) := by
      unfold processBody
      rw [hsem]
      cases hf : fn (eventOfRow (minIdRow r rs)) <;> simp [hf]
    have hcontains : locked.contains (minIdRow r rs).id = false := by
      have h2 := hmem2.2
      cases hc : locked.contains (minIdRow r rs).id
      · rfl
      · rw [hc] at h2; simp at h2
    refine ⟨minIdRow r rs, hmem2.1, hcontains, ?_, hpb, ?_⟩
    · intro s hs hsl
      have hsf : s ∈ table.filter (fun r => !locked.contains r.id) :=
        List.mem_filter.mpr ⟨hs, by rw [hsl]; rfl⟩
      rw [hfil] at hsf
      exact minIdRow_le rs r s hsf
    · intro hfn
      unfold OutboxProcess
      rw [hpb, hfn]

/-- C7 witness: the theorem applied to a two-row table with every row locked
(`Empty` mapped from the no-rows reply), together with the direct
evaluation on the unlocked table — the row of smallest id, row 1, is the
one deleted. -/
theorem process_load_and_delete_witness :
    (List.filter (fun r => !([1, 2] : List Int).contains r.id)
        [(⟨2, "a2", "t2", "ty2", "p2", 0⟩ : OutboxRow), ⟨1, "a1", "t1", "ty1", "p1", 0⟩] =
      []) ∧
    processBody [(⟨2, "a2", "t2", "ty2", "p2", 0⟩ : OutboxRow), ⟨1, "a1", "t1", "ty1", "p1", 0⟩]
        [1, 2] (fun _ => none) =
      (some Err.emptyOutbox,
        [(⟨2, "a2", "t2", "ty2", "p2", 0⟩ : OutboxRow), ⟨1, "a1", "t1", "ty1", "p1", 0⟩]) ∧
    processBody [(⟨2, "a2", "t2", "ty2", "p2", 0⟩ : OutboxRow), ⟨1, "a1", "t1", "ty1", "p1", 0⟩]
        ([] : List Int) (fun _ => none) =
      (none, [(⟨2, "a2", "t2", "ty2", "p2", 0⟩ : OutboxRow)]) :=
  ⟨by decide,
    ((process_load_and_delete
        [(⟨2, "a2", "t2", "ty2", "p2", 0⟩ : OutboxRow), ⟨1, "a1", "t1", "ty1", "p1", 0⟩]
        [1, 2] (fun _ => none)).1 (by decide)).1,
    by decide⟩
